import Mathlib

/-!
Shallow embedding of the plugin-lifecycle core of the NHL LED scoreboard
control-panel backend (`nhl-setup/web/config_server.py` together with the
probe script `nhl-setup/web/mqtt_test.py`), and proofs about it.

Conventions used throughout:
* Python dictionaries are embedded as association lists `List (String × α)`
  looked up with `List.lookup`; insertion (`d[k] = v`) is `dictInsert`,
  which updates an existing binding in place (preserving its position,
  exactly like a CPython dict) and otherwise appends.
* External effects (the launched subprocess, `json.loads`, the file system)
  are embedded as explicit inputs: the subprocess as a `ProcBehavior`
  value, JSON parsing as a function `String → Option JsonDoc` quantified
  over in the theorems, the two relevant files as an `FsState`.
* String primitives that CPython provides (`str.strip`, `str.split`,
  `str.lower`, substring search, the regex
  `NAME\s+VERSION\s+STATUS\s+COMMIT`) are re-implemented structurally over
  `List Char` so that every definition evaluates inside the kernel.
  As in the source they treat the ASCII whitespace characters; exotic
  Unicode whitespace is outside the model.
-/

namespace NhlSetup

/-- Result value of `run_shell_script` (`{'success': ..., 'output': ...}`),
the uniform command result consumed by every higher layer. -/
structure CommandResult where
  success : Bool
  output : String
deriving DecidableEq, Repr

/-- Abstract behaviour of the external process launched by
`run_shell_script`: the launch itself raises, or `communicate` exceeds the
timeout, or the process exits with a return code and captured streams.
This is the input over which the runner is embedded. -/
inductive ProcBehavior where
  | launchFailure (msg : String)
  | timedOut
  | exited (returncode : Int) (stdout stderr : String)
deriving DecidableEq, Repr

/-- The subprocess-API calls `run_shell_script` performs on the child, in
order: `subprocess.Popen` (line 291), `process.communicate(timeout=...)`
(line 299).  The source contains no `kill`/`terminate` call, so `.kill`
can only appear in a trace if some branch of the embedded code emits it. -/
inductive ProcAction where
  | popen
  | communicate (timeout : Nat)
  | kill
deriving DecidableEq, Repr

/-- Embedding of `run_shell_script` (config_server.py lines 287-314),
paired with the trace of subprocess-API calls made on the child process.
The `except subprocess.TimeoutExpired` branch (lines 309-311) logs and
returns; it does not invoke `process.kill()` or `process.terminate()`,
so the trace of the timeout path stops at `communicate`. -/
def run_shell_script_trace (b : ProcBehavior) (timeout : Nat) :
    CommandResult × List ProcAction :=
  match b with
  | .launchFailure msg =>
      ({ success := false, output := "An unexpected error occurred: " ++ msg },
       [.popen])
  | .timedOut =>
      ({ success := false,
         output := "Error: Script timed out after " ++ toString timeout ++ " seconds." },
       [.popen, .communicate timeout])
  | .exited rc out err =>
      let full_output := out ++ "\n" ++ err
      if rc = 0 then
        ({ success := true, output := full_output }, [.popen, .communicate timeout])
      else
        ({ success := false, output := full_output }, [.popen, .communicate timeout])

/-- The command result of `run_shell_script`, forgetting the action trace.
Totality of this function is the embedding of "never propagates an
exception to its caller": every behaviour of the child is mapped to a
returned `CommandResult`. -/
def run_shell_script (b : ProcBehavior) (timeout : Nat) : CommandResult :=
  (run_shell_script_trace b timeout).1

/-! ### Character-list string primitives -/

/-- Python `str.strip()` on the character list (ASCII whitespace). -/
def trimChars (cs : List Char) : List Char :=
  ((cs.dropWhile Char.isWhitespace).reverse.dropWhile Char.isWhitespace).reverse

/-- Python `str.split(sep)` for a single-character separator:
`splitOnChar '\n'` is `.split('\n')`, e.g. the empty list yields `[[]]`
just as `''.split('\n') == ['']`. -/
def splitOnChar (sep : Char) : List Char → List (List Char)
  | [] => [[]]
  | c :: rest =>
    let r := splitOnChar sep rest
    if c = sep then [] :: r
    else
      match r with
      | [] => [[c]]
      | g :: gs => (c :: g) :: gs

/-- Helper for `tokenizeChars`: accumulates the current (reversed) token. -/
def tokenizeAux : List Char → List Char → List (List Char)
  | [], acc => if acc.isEmpty then [] else [acc.reverse]
  | c :: rest, acc =>
    if c.isWhitespace then
      if acc.isEmpty then tokenizeAux rest []
      else acc.reverse :: tokenizeAux rest []
    else tokenizeAux rest (c :: acc)

/-- Python `str.split()` with no argument: whitespace-run tokenization,
dropping empty tokens. -/
def tokenizeChars (cs : List Char) : List (List Char) :=
  tokenizeAux cs []

/-- Whether `p` is an initial segment of `l` (Python `str.startswith`,
used to embed literal matching inside the regex search and `in`). -/
def startsWith : List Char → List Char → Bool
  | [], _ => true
  | _ :: _, [] => false
  | p :: ps, c :: cs => p = c && startsWith ps cs

/-- Python `needle in hay` substring test over character lists. -/
def containsSub (pat : List Char) : List Char → Bool
  | [] => startsWith pat []
  | c :: rest => startsWith pat (c :: rest) || containsSub pat rest

/-- Python `str.lower()` (ASCII case folding, as `Char.toLower`). -/
def toLowerChars (cs : List Char) : List Char :=
  cs.map Char.toLower

/-- CPython dict insertion `d[k] = v` on an association list: an existing
binding is updated in place, otherwise the binding is appended. -/
def dictInsert {α : Type} (acc : List (String × α)) (k : String) (v : α) :
    List (String × α) :=
  match acc with
  | [] => [(k, v)]
  | (k', v') :: rest => if k' = k then (k, v) :: rest else (k', v') :: dictInsert rest k v

/-! ### The status-table parser (`parse_plugin_list_output`, lines 326-368) -/

/-- One row of the live-status table: `{"version", "status", "commit"}`. -/
structure StatusEntry where
  version : String
  status : String
  commit : String
deriving DecidableEq, Repr

/-- The four column labels of the expected header. -/
def labelN : List Char := ['N', 'A', 'M', 'E']

def labelV : List Char := ['V', 'E', 'R', 'S', 'I', 'O', 'N']

def labelS : List Char := ['S', 'T', 'A', 'T', 'U', 'S']

def labelC : List Char := ['C', 'O', 'M', 'M', 'I', 'T']

/-- `\s+` at the head of the list: requires at least one whitespace
character and consumes the whole whitespace run.  (Because every label
begins with a non-whitespace character, maximal munch coincides with the
regex's backtracking semantics here.) -/
def skipWs1 : List Char → Option (List Char)
  | [] => none
  | c :: rest =>
    if c.isWhitespace then some (rest.dropWhile Char.isWhitespace) else none

/-- Matches `(\s+label)*` for the given label list at the head of `cs`. -/
def restLabels : List (List Char) → List Char → Bool
  | [], _ => true
  | p :: ps, cs =>
    match skipWs1 cs with
    | none => false
    | some cs' => startsWith p cs' && restLabels ps (cs'.drop p.length)

/-- Matches the regex `NAME\s+VERSION\s+STATUS\s+COMMIT` anchored at the
head of `cs`. -/
def matchNVSCAt (cs : List Char) : Bool :=
  startsWith labelN cs && restLabels [labelV, labelS, labelC] (cs.drop labelN.length)

/-- `re.search(r"NAME\s+VERSION\s+STATUS\s+COMMIT", ...)` (line 337):
tries the anchored match at every position. -/
def regexSearchNVSC : List Char → Bool
  | [] => false
  | c :: rest => matchNVSCAt (c :: rest) || regexSearchNVSC rest

/-- The specification-side reading of "the header contains the four
column labels in order": the line decomposes as arbitrary text around the
four labels, in order.  `DecompSeq ps cs` states that the patterns `ps`
occur in `cs` in that order, pairwise disjoint. -/
def DecompSeq : List (List Char) → List Char → Prop
  | [], _ => True
  | p :: ps, cs => ∃ x y, cs = x ++ p ++ y ∧ DecompSeq ps y

/-- Processing of one data line of the table (loop body, lines 342-366):
a blank line (`continue`) and a line with fewer than 4 whitespace tokens
(warning) both leave the accumulated dict unchanged; otherwise the first
four tokens become name, version, status, commit and the rest is ignored. -/
def parseDataLine (acc : List (String × StatusEntry)) (line : List Char) :
    List (String × StatusEntry) :=
  match tokenizeChars line with
  | n :: v :: s :: c :: _ =>
      dictInsert acc (String.mk n) ⟨String.mk v, String.mk s, String.mk c⟩
  | _ => acc

/-- The header line of the raw output: index 0 of
`output.strip().split('\n')`. -/
def headerLine (output : String) : List Char :=
  (splitOnChar '\n' (trimChars output.data)).headD []

/-- Embedding of `parse_plugin_list_output` (lines 326-368): fewer than
three lines yields the empty dict; a header not matching the regex yields
the empty dict; otherwise lines 2.. are folded by `parseDataLine`. -/
def parse_plugin_list_output (output : String) : List (String × StatusEntry) :=
  let lines := splitOnChar '\n' (trimChars output.data)
  if lines.length ≤ 2 then []
  else if regexSearchNVSC (lines.headD []) = false then []
  else (lines.drop 2).foldl parseDataLine []

/-! ### The connectivity-probe interpretation (`mqtt_test`, lines 464-477) -/

/-- Interpretation of the Command Runner result by the `/api/mqtt-test`
endpoint (line 473): success iff the runner reported success and the
lowercased output contains the token `yes`. -/
def mqtt_test_interpret (result : CommandResult) : Bool :=
  result.success && containsSub ['y', 'e', 's'] (toLowerChars result.output.data)

/-! ### JSON documents as observed by this subsystem

The code inspects a parsed document through: `data.get('plugins')` and
its truthiness (the self-heal, which treats every non-object uniformly
because `.get` raises `AttributeError` on all of them), and the reader
sequence `'plugins' in data`, `data['plugins']`,
`isinstance(data['plugins'], list)`, then per element `'name' in plugin`,
`plugin['name']`, and the dict insertion (the two manifest readers).
These steps raise on different shapes:

* `'plugins' in data` raises `TypeError` when `data` is a non-iterable
  scalar (`null`, a bool, a number);
* for a string or list `data` the membership test works; when it is
  true (the string contains `plugins`, or the list has a `"plugins"`
  element), the subsequent `data['plugins']` raises `TypeError`
  (string/list indices must be integers); when false, the reader simply
  proceeds with an empty map;
* for an object `data` neither step raises; a non-list `"plugins"`
  value fails the `isinstance` test and also leaves the map empty;
* inside a list value, an element on which the `'name'` check or the
  lookup/insertion raises aborts the loop, leaving the bindings
  inserted before it.

The document type below distinguishes exactly these shapes.  Name and
url values are modelled as strings (the shape of the manifest files and
of what the merge consumes as dict keys); a cleanly skipped non-object
list element behaves exactly like an object without a `"name"` key and
is represented the same way. -/

/-- One cleanly-read element of a `"plugins"` array, as observed by the
code: its `"name"` value (a string) when present, its `"url"` value when
present. -/
structure PluginEntryJson where
  name : Option String
  url : Option String
deriving DecidableEq, Repr

/-- A value bound to the `"plugins"` key of an object document: a list
whose traversal completes (`list`), a list whose traversal raises after
inserting a clean prefix (`listRaising`), or a non-list value of which
only truthiness is observed (the reader's `isinstance` test skips it
without raising). -/
inductive JsonVal where
  | list (entries : List PluginEntryJson)
  | listRaising (inserted : List PluginEntryJson)
  | otherTruthy
  | otherFalsy
deriving DecidableEq, Repr

/-- A parsed top-level document, split by how the reader sequence
behaves on it: a raising scalar, a string/list without a `plugins`
member (read proceeds, empty map), a string/list with one (raises at
`data['plugins']`), or an object. -/
inductive JsonDoc where
  | scalar
  | strOrListNoPlugins
  | strOrListWithPlugins
  | obj (plugins : Option JsonVal)
deriving DecidableEq, Repr

/-- Python truthiness of a `"plugins"` value: `[]` is falsy, a non-empty
list is truthy (a raising list contains at least its raising element, so
it is non-empty and truthy). -/
def jsonValTruthy : JsonVal → Bool
  | .list es => !es.isEmpty
  | .listRaising _ => true
  | .otherTruthy => true
  | .otherFalsy => false

/-- The two files touched by the self-heal: `plugins.json` (the installed
manifest) and `plugins.json.example` (the bundled template); `none` means
the file is absent, `some raw` its raw content. -/
structure FsState where
  installed : Option String
  template : Option String
deriving DecidableEq, Repr

/-- The trimmed content string, as in `content = f.read().strip()`. -/
def strippedContent (raw : String) : String :=
  String.mk (trimChars raw.data)

/-- The restore condition of `check_and_create_installed_plugins_file`
(lines 196-218): restore when the file is missing, or its stripped
content is empty, or `json.loads` fails, or the parsed value is not an
object (every non-object document — scalar, string or list — makes
`data.get` raise `AttributeError`, caught at line 216), or the
`"plugins"` value is missing/falsy.  `jparse` stands for `json.loads`. -/
def shouldRestore (jparse : String → Option JsonDoc) (installed : Option String) : Bool :=
  match installed with
  | none => true
  | some raw =>
    let content := strippedContent raw
    if content = "" then true
    else
      match jparse content with
      | none => true
      | some .scalar => true
      | some .strOrListNoPlugins => true
      | some .strOrListWithPlugins => true
      | some (.obj p) => !((p.map jsonValTruthy).getD false)

/-- Embedding of `check_and_create_installed_plugins_file` (lines
188-229): when the restore condition holds and the template file exists,
the installed file's content becomes the template's content
(`shutil.copy`, modelled as succeeding); when the template is absent the
heal is skipped; otherwise nothing changes. -/
def check_and_create_installed_plugins_file (jparse : String → Option JsonDoc)
    (st : FsState) : FsState :=
  if shouldRestore jparse st.installed then
    match st.template with
    | some t => { st with installed := some t }
    | none => st
  else st

/-! ### The reconciliation endpoint (`get_plugin_status`, lines 535-624) -/

/-- The insertions performed by the reader loop over a cleanly-read
plugins list (lines 552-554 and 567-569): each element carrying a
`"name"` becomes a binding. -/
def insertEntries (entries : List PluginEntryJson) : List (String × PluginEntryJson) :=
  entries.foldl
    (fun acc e =>
      match e.name with
      | some n => dictInsert acc n e
      | none => acc)
    []

/-- The manifest-reading block shared by the catalog read (lines
551-554) and the installed read (lines 566-569), applied to a parsed
document: the dict left behind by the loop, and whether the block
completed without raising.  A scalar document raises at
`'plugins' in data`; a string/list with a `plugins` member raises at
`data['plugins']`; a string/list without one, an object without the key,
and an object with a non-list value all complete with an empty dict; a
list value is traversed, either to completion or up to a raising
element (whose clean prefix stays in the dict). -/
def readPluginsBlock (doc : JsonDoc) : List (String × PluginEntryJson) × Bool :=
  match doc with
  | .scalar => ([], false)
  | .strOrListNoPlugins => ([], true)
  | .strOrListWithPlugins => ([], false)
  | .obj none => ([], true)
  | .obj (some (.list entries)) => (insertEntries entries, true)
  | .obj (some (.listRaising inserted)) => (insertEntries inserted, false)
  | .obj (some .otherTruthy) => ([], true)
  | .obj (some .otherFalsy) => ([], true)

/-- The merged record for one plugin name (loop bodies at lines 588-595
and 600-619).  The record depends only on the three lookups for that
name, so the dict-mutating loops of the source are embedded per-name. -/
structure PluginRecord where
  name : String
  url : String
  version : String
  status : String
  commit : String
deriving DecidableEq, Repr

/-- Builds the merged record for `name`: seeded from the catalog
(`status="available"`) or, failing that, from the installed entry's url
(`status="unknown"`); then live status overwrites version/status/commit
when present; otherwise an installed-but-not-live name gets
`status="error"`. -/
def mergeOne (available installed : List (String × PluginEntryJson))
    (statuses : List (String × StatusEntry)) (name : String) : PluginRecord :=
  let base : PluginRecord :=
    match available.lookup name with
    | some entry => ⟨name, entry.url.getD "-", "-", "available", "-"⟩
    | none => ⟨name, ((installed.lookup name).bind (·.url)).getD "-", "-", "unknown", "-"⟩
  match statuses.lookup name with
  | some st => { base with version := st.version, status := st.status, commit := st.commit }
  | none =>
      if (installed.lookup name).isSome then { base with status := "error" } else base

/-- Lexicographic code-point comparison of character lists, the order by
which Python compares strings. -/
def charListLe : List Char → List Char → Bool
  | [], _ => true
  | _ :: _, [] => false
  | a :: as, b :: bs => if a = b then charListLe as bs else decide (a.toNat < b.toNat)

/-- Stable insertion into a name-sorted list, for `sorted(...,
key=lambda p: p['name'])` (line 621). -/
def insertByName (p : PluginRecord) : List PluginRecord → List PluginRecord
  | [] => [p]
  | q :: qs =>
    if charListLe p.name.data q.name.data then p :: q :: qs else q :: insertByName p qs

/-- Sorting of the merged records by name (line 621). -/
def sortByName : List PluginRecord → List PluginRecord
  | [] => []
  | p :: ps => insertByName p (sortByName ps)

/-- The merge of the three sources (lines 584-621): the record set is
indexed by the union of the three key sets (the Python `set` union at
line 598, embedded as `dedup` of the concatenated key lists), one record
per name, sorted by name. -/
def mergeAll (available installed : List (String × PluginEntryJson))
    (statuses : List (String × StatusEntry)) : List PluginRecord :=
  let allNames :=
    (available.map Prod.fst ++ installed.map Prod.fst ++ statuses.map Prod.fst).dedup
  sortByName (allNames.map (mergeOne available installed statuses))

/-- Outcome of the `/api/plugins/status` endpoint: the merged list with
`success=True`, or the HTTP-500 failure payload
`{'success': False, 'plugins': [], 'message': ...}` produced at line 572.
The embedded message strings are fixed descriptions standing for
`str(e)`. -/
inductive PluginStatusResult where
  | ok (plugins : List PluginRecord)
  | failed (message : String)
deriving DecidableEq, Repr

/-- Whether the endpoint reported success. -/
def isOk : PluginStatusResult → Bool
  | .ok _ => true
  | .failed _ => false

/-- The catalog dict of the endpoint (lines 547-557): any exception —
missing file, parse failure, or a raise inside the reading block — is
caught at line 555 and only logged, so the endpoint continues with
whatever bindings were made before the fault (an empty dict for a
missing/unparsable file, the partial dict for a raising traversal).
`catalogRaw` is the content of `plugins_index.json` after the initial
`download_plugins_index()` call, `none` when the file is still absent. -/
def catalogMap (jparse : String → Option JsonDoc) (catalogRaw : Option String) :
    List (String × PluginEntryJson) :=
  match catalogRaw with
  | none => []
  | some raw =>
    match jparse raw with
    | none => []
    | some doc => (readPluginsBlock doc).1

/-- The live-status dict of the endpoint (lines 574-580): a failed list
command yields the empty dict, a successful one is parsed. -/
def liveStatuses (listResult : CommandResult) : List (String × StatusEntry) :=
  if listResult.success then parse_plugin_list_output listResult.output else []

/-- Embedding of `get_plugin_status` (lines 535-624): heal the installed
manifest, read the catalog (every failure tolerated), read the healed
installed manifest — any exception in that block (missing file, parse
failure, or a raise while traversing the document) is caught at lines
570-572 and returns the 500 payload — then obtain live status and merge.
Returns the endpoint outcome together with the file system left by the
heal. -/
def get_plugin_status (jparse : String → Option JsonDoc) (catalogRaw : Option String)
    (fs : FsState) (listResult : CommandResult) : PluginStatusResult × FsState :=
  let fs' := check_and_create_installed_plugins_file jparse fs
  let available := catalogMap jparse catalogRaw
  match fs'.installed with
  | none => (.failed "installed plugins file could not be read", fs')
  | some raw =>
    match jparse raw with
    | none => (.failed "installed plugins file could not be parsed", fs')
    | some doc =>
        let r := readPluginsBlock doc
        if r.2 then
          (.ok (mergeAll available r.1 (liveStatuses listResult)), fs')
        else
          (.failed "installed plugins document could not be traversed", fs')

/-- A small concrete stand-in for `json.loads`, used to evaluate the
endpoint at concrete inputs: it recognises three fixed raw file contents
(a well-formed catalog, a well-formed installed manifest, and a document
parsing to a bare scalar such as `null`) and fails on everything else
(as `json.loads` does on malformed text). -/
def jparseTable : String → Option JsonDoc :=
  fun s =>
    if s = "CATALOG" then some (.obj (some (.list [⟨some "alpha", some "url-a"⟩])))
    else if s = "INSTALLED" then some (.obj (some (.list [⟨some "beta", some "url-b"⟩])))
    else if s = "SCALARDOC" then some .scalar
    else none

/-! ## Theorems -/

/-- Claim C4, counterexample.  The claim states that on timeout the
Command Runner forcibly terminates the launched process.  The embedded
timeout path of `run_shell_script` performs no `kill`/`terminate` call on
the child: at the concrete input (a process that exceeds a 1-second
timeout) the action trace contains no `kill`, while the runner still
returns `success=false` with the timeout-describing output. -/
theorem timeout_path_issues_no_kill_cex :
    ProcAction.kill ∉ (run_shell_script_trace .timedOut 1).2 ∧
    (run_shell_script_trace .timedOut 1).1.success = false := by
  decide

/-- Claim C4 (amended): if the launched process does not exit within the
timeout, the Command Runner catches the expiration and returns
`success=false` with an output describing the timeout, without waiting
for the process to finish — but it does not forcibly terminate the child:
the subprocess interaction on this path is exactly `Popen` followed by
the timeout-bounded `communicate`, with no kill issued, so the child may
keep running. -/
theorem timeout_reported_without_kill (t : Nat) :
    run_shell_script_trace .timedOut t =
      ({ success := false,
         output := "Error: Script timed out after " ++ toString t ++ " seconds." },
       [.popen, .communicate t]) := rfl

/-- Claim C6: for every non-timeout execution the Command Runner returns
(rather than propagating an exception — the embedding is a total
function): exit code 0 yields `success=true`, any non-zero exit yields
`success=false`, both with the same concatenation of the captured stdout
and stderr streams; a launch failure is caught and returned as
`success=false` with the error text in the output. -/
theorem run_shell_script_result_spec (t : Nat) :
    (∀ out err, run_shell_script (.exited 0 out err) t =
       { success := true, output := out ++ "\n" ++ err }) ∧
    (∀ (rc : Int) out err, rc ≠ 0 → run_shell_script (.exited rc out err) t =
       { success := false, output := out ++ "\n" ++ err }) ∧
    (∀ msg, run_shell_script (.launchFailure msg) t =
       { success := false, output := "An unexpected error occurred: " ++ msg }) := by
  refine ⟨fun out err => rfl, fun rc out err h => ?_, fun msg => rfl⟩
  unfold run_shell_script run_shell_script_trace
  simp [h]

/-- Witness for C6 at a concrete non-zero exit. -/
theorem run_shell_script_result_spec_witness :
    run_shell_script (.exited 1 "out" "err") 5 =
      { success := false, output := "out" ++ "\n" ++ "err" } :=
  (run_shell_script_result_spec 5).2.1 1 "out" "err" (by decide)

/-- Claim C9: the probe reports success iff the Command Runner reported
success and the captured output contains the token `yes`
case-insensitively; in particular a timed-out probe, an output of `no`,
and a failed run with empty output are all reported as failure, and the
documented scenarios behave as specified. -/
theorem probe_success_iff (r : CommandResult) :
    (mqtt_test_interpret r = true ↔
       r.success = true ∧
       containsSub ['y', 'e', 's'] (toLowerChars r.output.data) = true) ∧
    mqtt_test_interpret (run_shell_script .timedOut 30) = false ∧
    mqtt_test_interpret { success := true, output := "yes\n" } = true ∧
    mqtt_test_interpret { success := true, output := "no\n" } = false ∧
    mqtt_test_interpret { success := false, output := "" } = false := by
  refine ⟨?_, by decide, by decide, by decide, by decide⟩
  simp [mqtt_test_interpret]

/-- Claim C10: whenever the stripped raw text splits into at most two
lines, the parser returns the empty map.  In the embedded definition the
length test is the first branch, before the header-format check, so the
result is the empty map regardless of the header's content — the witness
exercises this with a perfectly well-formed header. -/
theorem short_table_yields_empty (output : String)
    (h : (splitOnChar '\n' (trimChars output.data)).length ≤ 2) :
    parse_plugin_list_output output = [] := by
  unfold parse_plugin_list_output
  simp [h]

/-- Witness for C10: a table consisting of only a valid header and the
separator line parses to the empty map. -/
theorem short_table_yields_empty_witness :
    (splitOnChar '\n' (trimChars ("NAME  VERSION  STATUS  COMMIT\n--------" : String).data)).length ≤ 2 ∧
    parse_plugin_list_output "NAME  VERSION  STATUS  COMMIT\n--------" = [] :=
  ⟨by decide, short_table_yields_empty _ (by decide)⟩

/-- Claim C5, counterexample.  The claim states that both manifest
readers tolerate read/parse failure so that reconciliation always
proceeds and returns a result set.  At this concrete input the catalog
reads fine (it mentions plugin `alpha`), but the installed manifest's
content `"corrupt"` fails to parse (and the bundled template is absent,
so the self-heal cannot repair it): the endpoint does not proceed with an
empty installed map — it aborts with the HTTP-500 failure payload of line
572, so the caller receives `success=False` and no merged view. -/
theorem installed_read_failure_aborts_cex :
    (get_plugin_status jparseTable (some "CATALOG") ⟨some "corrupt", none⟩
        { success := false, output := "" }).1 =
      .failed "installed plugins file could not be parsed" ∧
    isOk (get_plugin_status jparseTable (some "CATALOG") ⟨some "corrupt", none⟩
        { success := false, output := "" }).1 = false := by
  decide

/-- Claim C5 (amended): the catalog reader is failure-tolerant — a
missing or unparsable catalog file contributes an empty map and
reconciliation proceeds; the installed-manifest reader is not — whenever
the installed file, after self-healing, is present, parses, and its
document is read without raising, the endpoint returns the merged
result, but when it is still absent, fails to parse, or raises while
being read (a non-iterable scalar document, a string/list document with
a `plugins` member, or a plugins list with an unreadable element), the
endpoint aborts and returns the failure payload (`success=False`, empty
plugin list, error message) instead of proceeding with an empty
installed map. -/
theorem reader_fault_tolerance (jparse : String → Option JsonDoc)
    (catalogRaw : Option String) (fs : FsState) (lr : CommandResult) :
    (∀ raw doc,
        (check_and_create_installed_plugins_file jparse fs).installed = some raw →
        jparse raw = some doc →
        (readPluginsBlock doc).2 = true →
        (get_plugin_status jparse catalogRaw fs lr).1 =
          .ok (mergeAll (catalogMap jparse catalogRaw) (readPluginsBlock doc).1
                (liveStatuses lr))) ∧
    (∀ raw', catalogRaw = some raw' → jparse raw' = none →
        catalogMap jparse catalogRaw = []) ∧
    (catalogRaw = none → catalogMap jparse catalogRaw = []) ∧
    ((check_and_create_installed_plugins_file jparse fs).installed = none →
        (get_plugin_status jparse catalogRaw fs lr).1 =
          .failed "installed plugins file could not be read") ∧
    (∀ raw,
        (check_and_create_installed_plugins_file jparse fs).installed = some raw →
        jparse raw = none →
        (get_plugin_status jparse catalogRaw fs lr).1 =
          .failed "installed plugins file could not be parsed") ∧
    (∀ raw doc,
        (check_and_create_installed_plugins_file jparse fs).installed = some raw →
        jparse raw = some doc →
        (readPluginsBlock doc).2 = false →
        (get_plugin_status jparse catalogRaw fs lr).1 =
          .failed "installed plugins document could not be traversed") := by
  refine ⟨?_, ?_, ?_, ?_, ?_, ?_⟩
  · intro raw doc h1 h2 h3
    unfold get_plugin_status
    simp only [h1, h2, h3, if_true]
  · intro raw' hc hn
    subst hc
    unfold catalogMap
    simp [hn]
  · intro hc
    subst hc
    rfl
  · intro h1
    unfold get_plugin_status
    simp only [h1]
  · intro raw h1 h2
    unfold get_plugin_status
    simp only [h1, h2]
  · intro raw doc h1 h2 h3
    unfold get_plugin_status
    simp [h1, h2, h3]

/-- Witness for C5 (amended) at concrete inputs: a parsable, cleanly
reading installed manifest makes the endpoint return the merged result
even with no catalog file at all; an absent installed file (with no
template to heal from) makes it return the failure payload; and an
installed file parsing to a bare scalar — which parses, but raises at
`'plugins' in data` — also makes it return the failure payload. -/
theorem reader_fault_tolerance_witness :
    (get_plugin_status jparseTable none ⟨some "INSTALLED", none⟩
        { success := false, output := "" }).1 =
      .ok (mergeAll (catalogMap jparseTable none)
            (readPluginsBlock (.obj (some (.list [⟨some "beta", some "url-b"⟩])))).1
            (liveStatuses { success := false, output := "" })) ∧
    (get_plugin_status jparseTable none ⟨none, none⟩
        { success := false, output := "" }).1 =
      .failed "installed plugins file could not be read" ∧
    (get_plugin_status jparseTable none ⟨some "SCALARDOC", none⟩
        { success := false, output := "" }).1 =
      .failed "installed plugins document could not be traversed" :=
  ⟨(reader_fault_tolerance jparseTable none ⟨some "INSTALLED", none⟩
      { success := false, output := "" }).1 "INSTALLED" _ (by decide) (by decide)
      (by decide),
   (reader_fault_tolerance jparseTable none ⟨none, none⟩
      { success := false, output := "" }).2.2.2.1 (by decide),
   (reader_fault_tolerance jparseTable none ⟨some "SCALARDOC", none⟩
      { success := false, output := "" }).2.2.2.2.2 "SCALARDOC" .scalar
      (by decide) (by decide) (by decide)⟩

/-- Claim C8: the self-heal on the reconciliation read path replaces the
installed file's content with the template's content exactly when the
restore condition holds (file absent; stripped content empty; unparsable;
or the parsed document does not provide a truthy `"plugins"` entry — the
code's rendering of "parses to an empty/missing plugin list", which also
covers non-object documents) and the template file exists; the template
itself is never touched; healing a zero-byte installed file copies the
template's content verbatim; and a manifest that validates as containing
at least one plugin entry is left completely unchanged. -/
theorem self_heal_spec (jparse : String → Option JsonDoc) (st : FsState) :
    ((check_and_create_installed_plugins_file jparse st).installed =
       if shouldRestore jparse st.installed && st.template.isSome then st.template
       else st.installed) ∧
    ((check_and_create_installed_plugins_file jparse st).template = st.template) ∧
    (∀ t, st.installed = some "" → st.template = some t →
       (check_and_create_installed_plugins_file jparse st).installed = some t) ∧
    (∀ raw entry rest, st.installed = some raw →
       jparse (strippedContent raw) = some (.obj (some (.list (entry :: rest)))) →
       strippedContent raw ≠ "" →
       check_and_create_installed_plugins_file jparse st = st) := by
  refine ⟨?_, ?_, ?_, ?_⟩
  · unfold check_and_create_installed_plugins_file
    cases hres : shouldRestore jparse st.installed <;>
      cases htpl : st.template <;> simp [hres, htpl]
  · unfold check_and_create_installed_plugins_file
    cases hres : shouldRestore jparse st.installed <;>
      cases htpl : st.template <;> simp [hres, htpl]
  · intro t hi ht
    have hres : shouldRestore jparse st.installed = true := by
      rw [hi]; rfl
    unfold check_and_create_installed_plugins_file
    simp [hres, ht]
  · intro raw entry rest hi hp hne
    have hres : shouldRestore jparse st.installed = false := by
      rw [hi]
      unfold shouldRestore
      simp [hne, hp, jsonValTruthy]
    unfold check_and_create_installed_plugins_file
    simp [hres]

/-- Witness for C8 at concrete inputs: a zero-byte installed file with a
present template is healed to the template's content, and a manifest that
parses to a non-empty plugin list is left unchanged. -/
theorem self_heal_spec_witness :
    (check_and_create_installed_plugins_file jparseTable
        ⟨some "", some "TEMPLATE"⟩).installed = some "TEMPLATE" ∧
    check_and_create_installed_plugins_file jparseTable
        ⟨some "INSTALLED", some "TEMPLATE"⟩ = ⟨some "INSTALLED", some "TEMPLATE"⟩ :=
  ⟨(self_heal_spec jparseTable ⟨some "", some "TEMPLATE"⟩).2.2.1 "TEMPLATE" rfl rfl,
   (self_heal_spec jparseTable ⟨some "INSTALLED", some "TEMPLATE"⟩).2.2.2
     "INSTALLED" ⟨some "beta", some "url-b"⟩ [] rfl (by decide) (by decide)⟩

/-! ### Permutation facts about the merge -/

theorem insertByName_perm (p : PluginRecord) (l : List PluginRecord) :
    List.Perm (insertByName p l) (p :: l) := by
  induction l with
  | nil => exact List.Perm.refl _
  | cons q qs ih =>
    unfold insertByName
    split
    · exact List.Perm.refl _
    · exact (ih.cons q).trans (List.Perm.swap p q qs)

theorem sortByName_perm (l : List PluginRecord) : List.Perm (sortByName l) l := by
  induction l with
  | nil => exact List.Perm.refl _
  | cons p ps ih => exact (insertByName_perm p (sortByName ps)).trans (ih.cons p)

theorem mergeOne_name (available installed : List (String × PluginEntryJson))
    (statuses : List (String × StatusEntry)) (n : String) :
    (mergeOne available installed statuses n).name = n := by
  unfold mergeOne
  cases available.lookup n <;> cases statuses.lookup n <;> dsimp <;> split <;> rfl

/-- Membership in the merged view: exactly the records `mergeOne` builds
for the names in the union. -/
theorem mem_mergeAll_iff (available installed : List (String × PluginEntryJson))
    (statuses : List (String × StatusEntry)) (r : PluginRecord) :
    r ∈ mergeAll available installed statuses ↔
      ∃ n ∈ (available.map Prod.fst ++ installed.map Prod.fst ++
              statuses.map Prod.fst).dedup,
        mergeOne available installed statuses n = r := by
  unfold mergeAll
  rw [(sortByName_perm _).mem_iff, List.mem_map]

theorem names_mergeAll_perm (available installed : List (String × PluginEntryJson))
    (statuses : List (String × StatusEntry)) :
    List.Perm ((mergeAll available installed statuses).map PluginRecord.name)
      ((available.map Prod.fst ++ installed.map Prod.fst ++
        statuses.map Prod.fst).dedup) := by
  unfold mergeAll
  refine ((sortByName_perm _).map _).trans ?_
  rw [List.map_map]
  have h : ∀ l : List String,
      l.map (PluginRecord.name ∘ mergeOne available installed statuses) = l := by
    intro l
    induction l with
    | nil => rfl
    | cons a as ih => simp [Function.comp, mergeOne_name, ih]
  rw [h]

/-- Claim C1: for every triple of input maps, the key set of the merged
view is exactly the union of the three key sets — the merged names are
pairwise distinct (each name appears exactly once) and a name appears in
the merged view iff at least one source mentions it. -/
theorem merged_keys_are_union (available installed : List (String × PluginEntryJson))
    (statuses : List (String × StatusEntry)) :
    ((mergeAll available installed statuses).map PluginRecord.name).Nodup ∧
    ∀ n, (n ∈ (mergeAll available installed statuses).map PluginRecord.name ↔
      n ∈ available.map Prod.fst ∨ n ∈ installed.map Prod.fst ∨
        n ∈ statuses.map Prod.fst) := by
  have hperm := names_mergeAll_perm available installed statuses
  constructor
  · exact hperm.nodup_iff.mpr (List.nodup_dedup _)
  · intro n
    rw [hperm.mem_iff, List.mem_dedup, List.mem_append, List.mem_append, or_assoc]

/-- Claim C2: every merged record whose name has a live-status entry
carries exactly that entry's version, status and commit, regardless of
the catalog and installed content (which are universally quantified
here). -/
theorem live_status_wins (available installed : List (String × PluginEntryJson))
    (statuses : List (String × StatusEntry)) (r : PluginRecord) (st : StatusEntry)
    (hr : r ∈ mergeAll available installed statuses)
    (hst : statuses.lookup r.name = some st) :
    r.version = st.version ∧ r.status = st.status ∧ r.commit = st.commit := by
  obtain ⟨n, -, rfl⟩ := (mem_mergeAll_iff available installed statuses r).1 hr
  rw [mergeOne_name] at hst
  unfold mergeOne
  rw [hst]
  cases available.lookup n <;> exact ⟨rfl, rfl, rfl⟩

/-- Witness for C2: the live status for `beta` overrides both a catalog
entry and an installed entry for the same name. -/
theorem live_status_wins_witness :
    (⟨"beta", "url-b", "2.0", "live", "fff"⟩ : PluginRecord) ∈
      mergeAll [("beta", ⟨some "beta", some "url-b"⟩)]
        [("beta", ⟨some "beta", some "other"⟩)] [("beta", ⟨"2.0", "live", "fff"⟩)] ∧
    (⟨"beta", "url-b", "2.0", "live", "fff"⟩ : PluginRecord).version = "2.0" ∧
    (⟨"beta", "url-b", "2.0", "live", "fff"⟩ : PluginRecord).status = "live" ∧
    (⟨"beta", "url-b", "2.0", "live", "fff"⟩ : PluginRecord).commit = "fff" := by
  refine ⟨by decide, ?_⟩
  exact live_status_wins [("beta", ⟨some "beta", some "url-b"⟩)]
    [("beta", ⟨some "beta", some "other"⟩)] [("beta", ⟨"2.0", "live", "fff"⟩)]
    ⟨"beta", "url-b", "2.0", "live", "fff"⟩ ⟨"2.0", "live", "fff"⟩
    (by decide) (by decide)

/-- Claim C3: a merged record whose name has no live-status entry has
status `"error"` when the name is in the installed manifest, and status
`"available"` when the name is only in the catalog (not installed). -/
theorem no_live_status_error_or_available
    (available installed : List (String × PluginEntryJson))
    (statuses : List (String × StatusEntry)) (r : PluginRecord)
    (hr : r ∈ mergeAll available installed statuses)
    (hnone : statuses.lookup r.name = none) :
    ((installed.lookup r.name).isSome → r.status = "error") ∧
    (installed.lookup r.name = none → (available.lookup r.name).isSome →
       r.status = "available") := by
  obtain ⟨n, -, rfl⟩ := (mem_mergeAll_iff available installed statuses r).1 hr
  rw [mergeOne_name] at hnone ⊢
  constructor
  · intro hinst
    unfold mergeOne
    rw [hnone]
    cases available.lookup n <;> simp [hinst]
  · intro hinst hav
    unfold mergeOne
    rw [hnone, hinst]
    cases hv : available.lookup n
    · rw [hv] at hav
      cases hav
    · simp

/-- Witness for C3: with no live status, the installed name `beta` gets
status `"error"` and the catalog-only name `alpha` stays
`"available"`. -/
theorem no_live_status_witness :
    ((⟨"beta", "-", "-", "error", "-"⟩ : PluginRecord).status = "error" ∧
     (⟨"alpha", "u", "-", "available", "-"⟩ : PluginRecord).status = "available") := by
  have h1 := no_live_status_error_or_available
    [("alpha", ⟨some "alpha", some "u"⟩)] [("beta", ⟨some "beta", none⟩)] []
    ⟨"beta", "-", "-", "error", "-"⟩ (by decide) (by decide)
  have h2 := no_live_status_error_or_available
    [("alpha", ⟨some "alpha", some "u"⟩)] [("beta", ⟨some "beta", none⟩)] []
    ⟨"alpha", "u", "-", "available", "-"⟩ (by decide) (by decide)
  exact ⟨h1.1 (by decide), h2.2 (by decide) (by decide)⟩

/-! ### The header regex and the line-skipping behaviour (C7) -/

theorem startsWith_iff (p l : List Char) :
    startsWith p l = true ↔ ∃ t, l = p ++ t := by
  induction p generalizing l with
  | nil =>
    simp [startsWith]
  | cons a as ih =>
    cases l with
    | nil =>
      simp [startsWith]
    | cons b bs =>
      simp only [startsWith, Bool.and_eq_true, decide_eq_true_eq, ih, List.cons_append,
        List.cons.injEq]
      constructor
      · rintro ⟨rfl, t, rfl⟩
        exact ⟨t, rfl, rfl⟩
      · rintro ⟨t, rfl, rfl⟩
        exact ⟨rfl, t, rfl⟩

theorem decompSeq_extend (z : List Char) {ps : List (List Char)} {cs : List Char}
    (h : DecompSeq ps cs) : DecompSeq ps (z ++ cs) := by
  cases ps with
  | nil => trivial
  | cons p ps' =>
    obtain ⟨x, y, rfl, hd⟩ := h
    exact ⟨z ++ x, y, by simp, hd⟩

theorem skipWs1_append {cs u : List Char} (h : skipWs1 cs = some u) :
    ∃ w, cs = w ++ u := by
  cases cs with
  | nil => cases h
  | cons c rest =>
    simp only [skipWs1] at h
    split at h
    · cases h
      exact ⟨c :: rest.takeWhile Char.isWhitespace,
        by simp [List.takeWhile_append_dropWhile]⟩
    · cases h

theorem restLabels_decomp : ∀ (ps : List (List Char)) (cs : List Char),
    restLabels ps cs = true → DecompSeq ps cs := by
  intro ps
  induction ps with
  | nil => intro cs _; trivial
  | cons p ps' ih =>
    intro cs h
    unfold restLabels at h
    cases hskip : skipWs1 cs with
    | none => rw [hskip] at h; cases h
    | some cs' =>
      rw [hskip, Bool.and_eq_true] at h
      obtain ⟨hstart, hrest⟩ := h
      obtain ⟨t, rfl⟩ := (startsWith_iff p cs').1 hstart
      obtain ⟨w, hw⟩ := skipWs1_append hskip
      have hdrop : (p ++ t).drop p.length = t := List.drop_left p t
      refine ⟨w, t, by rw [hw]; simp, ih t ?_⟩
      rw [hdrop] at hrest
      exact hrest

theorem matchNVSCAt_decomp {cs : List Char} (h : matchNVSCAt cs = true) :
    DecompSeq [labelN, labelV, labelS, labelC] cs := by
  unfold matchNVSCAt at h
  rw [Bool.and_eq_true] at h
  obtain ⟨h1, h2⟩ := h
  obtain ⟨t, rfl⟩ := (startsWith_iff _ _).1 h1
  rw [List.drop_left] at h2
  exact ⟨[], t, by simp, restLabels_decomp _ _ h2⟩

theorem regexSearchNVSC_decomp : ∀ cs : List Char, regexSearchNVSC cs = true →
    DecompSeq [labelN, labelV, labelS, labelC] cs := by
  intro cs
  induction cs with
  | nil => intro h; cases h
  | cons c rest ih =>
    intro h
    unfold regexSearchNVSC at h
    rw [Bool.or_eq_true] at h
    rcases h with hm | hr
    · exact matchNVSCAt_decomp hm
    · exact decompSeq_extend [c] (ih hr)

theorem decompSeq_length : ∀ (ps : List (List Char)) (cs : List Char),
    DecompSeq ps cs → (ps.map List.length).sum ≤ cs.length := by
  intro ps
  induction ps with
  | nil => intro cs _; simp
  | cons p ps' ih =>
    rintro cs ⟨x, y, rfl, hd⟩
    have hy := ih y hd
    simp only [List.map_cons, List.sum_cons, List.length_append]
    omega

theorem parseDataLine_skip {line : List Char}
    (h : (tokenizeChars line).length < 4) (acc : List (String × StatusEntry)) :
    parseDataLine acc line = acc := by
  unfold parseDataLine
  split
  · rename_i n v s c rest heq
    rw [heq] at h
    simp at h
    omega
  · rfl

theorem parseDataLine_entry {line : List Char} {n v s c : List Char}
    {rest : List (List Char)} (h : tokenizeChars line = n :: v :: s :: c :: rest)
    (acc : List (String × StatusEntry)) :
    parseDataLine acc line =
      dictInsert acc (String.mk n) ⟨String.mk v, String.mk s, String.mk c⟩ := by
  unfold parseDataLine
  rw [h]

/-- Claim C7: (1) when the header line does not contain the four column
labels NAME, VERSION, STATUS, COMMIT in that order (`DecompSeq`), the
parser returns the empty map rather than failing; (2) any data line
producing fewer than 4 whitespace tokens is skipped — deleting it from
the data-line fold changes nothing, so all other lines, before and after
it, are still parsed; (3) a line with at least 4 tokens contributes
exactly its first four tokens as name, version, status and commit, the
remaining tokens being ignored. -/
theorem parser_tolerance (output : String) :
    (¬ DecompSeq [labelN, labelV, labelS, labelC] (headerLine output) →
       parse_plugin_list_output output = []) ∧
    (∀ (acc : List (String × StatusEntry)) (pre post : List (List Char))
       (line : List Char),
       (tokenizeChars line).length < 4 →
       (pre ++ line :: post).foldl parseDataLine acc =
         (pre ++ post).foldl parseDataLine acc) ∧
    (∀ (acc : List (String × StatusEntry)) (post : List (List Char))
       (line n v s c : List Char) (rest : List (List Char)),
       tokenizeChars line = n :: v :: s :: c :: rest →
       (line :: post).foldl parseDataLine acc =
         post.foldl parseDataLine
           (dictInsert acc (String.mk n) ⟨String.mk v, String.mk s, String.mk c⟩)) := by
  refine ⟨?_, ?_, ?_⟩
  · intro hnd
    unfold headerLine at hnd
    unfold parse_plugin_list_output
    by_cases hlen : (splitOnChar '\n' (trimChars output.data)).length ≤ 2
    · simp [hlen]
    · have hreg : regexSearchNVSC ((splitOnChar '\n' (trimChars output.data)).headD [])
          = false := by
        cases hc : regexSearchNVSC ((splitOnChar '\n' (trimChars output.data)).headD [])
        · rfl
        · exact absurd (regexSearchNVSC_decomp _ hc) hnd
      rw [if_neg hlen, if_pos hreg]
  · intro acc pre post line h
    rw [List.foldl_append, List.foldl_append, List.foldl_cons, parseDataLine_skip h]
  · intro acc post line n v s c rest h
    rw [List.foldl_cons, parseDataLine_entry h]

/-- Witness for C7: a table whose header is junk parses to the empty map
(its 10-character header is too short to contain the 23 characters of the
four labels); a 2-token line inside the data fold is skipped while its
neighbours are kept; a 5-token line contributes its first four tokens. -/
theorem parser_tolerance_witness :
    parse_plugin_list_output "BAD HEADER\n----\nfoo 1.0 installed abc" = [] ∧
    ([] ++ ['a', ' ', 'b'] :: [['o', 'k', ' ', '1', ' ', '2', ' ', '3']]).foldl
        parseDataLine [] =
      ([] ++ [['o', 'k', ' ', '1', ' ', '2', ' ', '3']]).foldl parseDataLine [] ∧
    (['n', ' ', '1', ' ', 's', ' ', 'c', ' ', 'x'] :: []).foldl parseDataLine [] =
      [].foldl parseDataLine (dictInsert [] "n" ⟨"1", "s", "c"⟩) := by
  refine ⟨?_, ?_, ?_⟩
  · refine (parser_tolerance "BAD HEADER\n----\nfoo 1.0 installed abc").1 ?_
    intro hd
    have hlen := decompSeq_length _ _ hd
    revert hlen
    decide
  · exact (parser_tolerance "").2.1 [] [] [['o', 'k', ' ', '1', ' ', '2', ' ', '3']]
      ['a', ' ', 'b'] (by decide)
  · exact (parser_tolerance "").2.2 [] [] ['n', ' ', '1', ' ', 's', ' ', 'c', ' ', 'x']
      ['n'] ['1'] ['s'] ['c'] [['x']] (by decide)

end NhlSetup
